import Mathlib

/-!
Verification of the multi-modal UI detection engine and retry/backoff loop of the
Chilling-Vibes repository (src/src/image_recognition.py, src/src/relay_automation.py,
src/src/config_loader.py), as a shallow embedding in Lean.

Time is modelled in integer milliseconds; the 0.5 s polling sleep is 500 ms.  Sensing
primitives (template locate, screenshot, OCR) are oracles indexed by the wall-clock time
at which they are invoked.  Fallible operations return Option / Except.
-/

set_option autoImplicit false

namespace ChillingVibes

/-- Config-side color value: a list of Python integers per channel. -/
abbrev Color := List ℤ

/-- Screenshot pixel: a list of nonnegative channel values. -/
abbrev Pixel := List ℕ

/-- A screen point, as clicked by pyautogui. -/
abbrev Point := ℤ × ℤ

/-- Embedding of `ImageRecognizer._color_match` (src/src/image_recognition.py lines
142-151): `all(abs(c1 - c2) <= tolerance for c1, c2 in zip(color1, color2))`.
`zip` truncates to the shorter list. -/
def color_match (color1 color2 : Color) (tolerance : ℤ) : Bool :=
  (color1.zip color2).all fun p => decide (|p.1 - p.2| ≤ tolerance)

/-- View of a captured screenshot: dimensions plus the pixel at each coordinate. -/
structure Screenshot where
  width : ℕ
  height : ℕ
  pix : ℕ → ℕ → Pixel

/-- PIL `Image.getpixel((x, y))`: returns the pixel, raising IndexError (modelled as
`none`) when the coordinate is out of bounds. -/
def getpixel (img : Screenshot) (x y : ℤ) : Option Pixel :=
  if 0 ≤ x ∧ x < (img.width : ℤ) ∧ 0 ≤ y ∧ y < (img.height : ℤ) then
    some (img.pix x.toNat y.toNat)
  else none

/-- Pixel read used by PIL `Image.crop`: out-of-bounds area is filled with black. -/
def pixel_at_padded (img : Screenshot) (x y : ℤ) : Pixel :=
  if 0 ≤ x ∧ x < (img.width : ℤ) ∧ 0 ≤ y ∧ y < (img.height : ℤ) then
    img.pix x.toNat y.toNat
  else [0, 0, 0]

/-- PIL `Image.crop((l, t, r, b))` followed by `getdata()`: raises ValueError (modelled
as `Except.error`) when `r < l` or `b < t`; any part of the box outside the image is
filled with black pixels.  Pixels are listed in row-major order. -/
def pil_crop (img : Screenshot) (l t r b : ℤ) : Except String (List Pixel) :=
  if r < l then Except.error "ValueError"
  else if b < t then Except.error "ValueError"
  else Except.ok ((List.range (b - t).toNat).flatMap fun (dy : ℕ) =>
    (List.range (r - l).toNat).map fun (dx : ℕ) =>
      pixel_at_padded img (l + (dx : ℤ)) (t + (dy : ℤ)))

/-- Embedding of `ImageRecognizer._average_color` (lines 153-163):
`tuple(sum(c[i] for c in pixels) // num_pixels for i in range(3))`.
Raises ZeroDivisionError on an empty pixel list and IndexError when a pixel has fewer
than 3 channels; both are modelled as `Except.error`. -/
def average_color (pixels : List Pixel) : Except String Pixel :=
  if pixels.isEmpty then Except.error "ZeroDivisionError"
  else if pixels.any fun c => decide (c.length < 3) then Except.error "IndexError"
  else Except.ok ((List.range 3).map fun i =>
    (pixels.map fun c => c.getD i 0).sum / pixels.length)

/-- The region-sampling operation realized by `find_pixel_and_click` (lines 116-119):
`screenshot.crop((left, top, left + width, top + height))` followed by
`_average_color`; any exception from either step propagates. -/
def region_average (img : Screenshot) (l t w h : ℤ) : Except String Pixel :=
  match pil_crop img l t (l + w) (t + h) with
  | Except.error e => Except.error e
  | Except.ok px => average_color px

/-- Spec-side list of the image pixels of a rect, row-major (no padding). -/
def rect_pixels (img : Screenshot) (l t : ℤ) (w h : ℕ) : List Pixel :=
  (List.range h).flatMap fun dy =>
    (List.range w).map fun dx => img.pix (l.toNat + dx) (t.toNat + dy)

/-- Spec-side per-channel integer mean (floor division) over all pixels of a rect. -/
def mean_spec (img : Screenshot) (l t w h : ℤ) : Pixel :=
  (List.range 3).map fun i =>
    ((rect_pixels img l t w.toNat h.toNat).map fun c => c.getD i 0).sum
      / (w.toNat * h.toNat)

/-- Whether an `Except` result is a success. -/
def is_ok {ε α : Type} : Except ε α → Bool
  | Except.ok _ => true
  | Except.error _ => false

/-! ### ConfigLoader -/

/-- YAML-like configuration values held by `ConfigLoader.data`. -/
inductive CVal where
  | vnull : CVal
  | vbool (b : Bool) : CVal
  | vint (n : ℤ) : CVal
  | vstr (s : String) : CVal
  | vlist (l : List CVal) : CVal
  | vdict (entries : List (String × CVal)) : CVal

/-- Embedding of `ConfigLoader.get` (src/src/config_loader.py lines 32-42): walk the
key path; at each step, if the current value is a dict containing the key, descend,
otherwise return the default immediately. -/
def config_get (dflt : CVal) : CVal → List String → CVal
  | d, [] => d
  | d, k :: ks =>
    match d with
    | CVal.vdict es =>
      match es.lookup k with
      | some v => config_get dflt v ks
      | none => dflt
    | _ => dflt

/-- Spec-side reading of nested lookup: the nested value when every key in the path is
present in successive nested dicts, `none` otherwise. -/
def config_lookup : CVal → List String → Option CVal
  | d, [] => some d
  | d, k :: ks =>
    match d with
    | CVal.vdict es =>
      match es.lookup k with
      | some v => config_lookup v ks
      | none => none
    | _ => none

/-! ### Claims C8, C10, C9 -/

/-- Symmetry of `color_match` for color lists of any length. -/
theorem color_match_symm (a b : Color) (t : ℤ) :
    color_match a b t = color_match b a t := by
  induction a generalizing b with
  | nil => cases b <;> rfl
  | cons x xs ih =>
    cases b with
    | nil => rfl
    | cons y ys =>
      simp only [color_match, List.zip_cons_cons, List.all_cons] at *
      rw [abs_sub_comm, ih ys]

/-- C8: the color-match predicate is symmetric on RGB triples, reflexive for any
nonnegative tolerance, and holds exactly when every channel difference is within the
tolerance. -/
theorem C8_theorem (a1 a2 a3 b1 b2 b3 t : ℤ) :
    color_match [a1, a2, a3] [b1, b2, b3] t = color_match [b1, b2, b3] [a1, a2, a3] t ∧
    (0 ≤ t → color_match [a1, a2, a3] [a1, a2, a3] t = true) ∧
    (color_match [a1, a2, a3] [b1, b2, b3] t = true ↔
      |a1 - b1| ≤ t ∧ |a2 - b2| ≤ t ∧ |a3 - b3| ≤ t) := by
  refine ⟨color_match_symm _ _ _, ?_, ?_⟩
  · intro ht
    simp [color_match, ht]
  · simp [color_match, and_assoc]

/-- Witness for C8 at a concrete input: reflexivity at tolerance 0 for (12, 34, 56). -/
theorem C8_witness : color_match [12, 34, 56] [12, 34, 56] 0 = true :=
  (C8_theorem 12 34 56 12 34 56 0).2.1 (by decide)

/-- C10: `color_match` compares only the channels common to both inputs (`zip`
truncation): a 4-channel observed RGBA pixel against a 3-channel expected color ignores
the alpha channel, and any color matches an empty expected color list. -/
theorem C10_theorem (r g b alpha e1 e2 e3 t : ℤ) (c : Color) :
    color_match [r, g, b, alpha] [e1, e2, e3] t = color_match [r, g, b] [e1, e2, e3] t ∧
    color_match c [] t = true := by
  constructor
  · rfl
  · simp [color_match]

/-- C9: `ConfigLoader.get` is total and equals the nested lookup with default: it
returns the nested value when every key in the path is present in successive nested
dicts, and the supplied default as soon as any intermediate value is not a dict or any
key is missing. -/
theorem C9_theorem (dflt d : CVal) (ks : List String) :
    config_get dflt d ks = (config_lookup d ks).getD dflt := by
  induction ks generalizing d with
  | nil => rfl
  | cons k ks ih =>
    cases d with
    | vdict es =>
      simp only [config_get, config_lookup]
      cases es.lookup k with
      | some v => exact ih v
      | none => rfl
    | vnull => rfl
    | vbool b => rfl
    | vint n => rfl
    | vstr s => rfl
    | vlist l => rfl

/-! ### Retry loop of RelayAutomation.run -/

/-- The (iteration, attempt) pair logged at the top of every attempt
(`"Starting relay iteration #{self.iterations}, attempt #{retries + 1}"`,
src/src/relay_automation.py line 100). -/
structure AttemptEntry where
  iteration : ℕ
  attempt : ℕ
  deriving DecidableEq

/-- Embedding of the inner retry loop of `RelayAutomation.run`
(src/src/relay_automation.py lines 88-298) for the non-paused, browser-disabled path.
`results k` tells whether the attempt made with retry counter `k` succeeds (`false` =
the iteration body raises RuntimeError).  `iters` is the current value of
`self.iterations`, which the source increments at the top of every attempt (line 99).
Returns (logged attempt entries, backoff sleeps in seconds, overall success).
After a failure the counter is incremented; the loop stops (skipping the iteration)
once `retries >= max_retries`, otherwise it sleeps
`min(backoff_base * 2 ** (retries - 1), max_backoff)` and retries (lines 286-298).
`fuel` bounds the recursion; `max_retries + 1` is never exhausted since every recursive
step strictly increases `retries` toward `max_retries`. -/
def retry_loop (results : ℕ → Bool) (maxRetries base maxBackoff : ℕ) :
    ℕ → ℕ → ℕ → List AttemptEntry × List ℕ × Bool
  | 0, _, _ => ([], [], false)
  | fuel + 1, iters, retries =>
    let entry : AttemptEntry := ⟨iters + 1, retries + 1⟩
    if results retries then ([entry], [], true)
    else if maxRetries ≤ retries + 1 then ([entry], [], false)
    else
      let backoff := min (base * 2 ^ retries) maxBackoff
      let r := retry_loop results maxRetries base maxBackoff fuel (iters + 1) (retries + 1)
      (entry :: r.1, backoff :: r.2.1, r.2.2)

/-- One outer-loop iteration of `RelayAutomation.run`, started with `retries = 0`
(line 88) and the iteration counter at `iters`. -/
def run_iteration (results : ℕ → Bool) (maxRetries base maxBackoff iters : ℕ) :
    List AttemptEntry × List ℕ × Bool :=
  retry_loop results maxRetries base maxBackoff (maxRetries + 1) iters 0

/-- C4 counterexample: with backoff base 2, cap 30 and 5 max retries, five consecutive
failures produce the sleeps [2, 4, 8, 16] — there is no fifth sleep of 30 seconds,
because after the fifth failed attempt the loop reports exhaustion and skips without
sleeping. -/
theorem C4_counterexample :
    (run_iteration (fun _ => false) 5 2 30 0).2.1 = [2, 4, 8, 16] ∧
    ([2, 4, 8, 16] : List ℕ) ≠ [2, 4, 8, 16, 30] := by
  decide

/-- C4 amended: with backoff_base_seconds = 2, max_backoff_seconds = 30 and
max_retries_per_iteration = 5, on 5 consecutive failures the loop sleeps [2, 4, 8, 16]
seconds between the five attempts (no sleep follows the final failed attempt, so the
30-second cap is never reached), makes exactly 5 attempts numbered 1..5, reports
exhaustion after the fifth, and never makes a sixth attempt. -/
theorem C4_amended :
    (run_iteration (fun _ => false) 5 2 30 0).2.1 = [2, 4, 8, 16] ∧
    (run_iteration (fun _ => false) 5 2 30 0).1.length = 5 ∧
    (run_iteration (fun _ => false) 5 2 30 0).1.map AttemptEntry.attempt =
      [1, 2, 3, 4, 5] ∧
    (run_iteration (fun _ => false) 5 2 30 0).2.2 = false := by
  decide

/-- C5: evaluation of the retry loop at the failing input.  The source increments
`self.iterations` at the top of every attempt, so the five attempts of one logical
iteration are logged as iterations #1..#5 rather than as iteration #1 with attempts
#1..#5; the backoff sleeps do follow min(2 * 2 ^ (attempt - 1), 30).  This contradicts
the claim (and the source's own "iteration #i, attempt #j" log format): the retried
attempt does not carry the same iteration number. -/
theorem C5_code_bug_eval :
    (run_iteration (fun _ => false) 5 2 30 0).1 =
      [⟨1, 1⟩, ⟨2, 2⟩, ⟨3, 3⟩, ⟨4, 4⟩, ⟨5, 5⟩] ∧
    (run_iteration (fun _ => false) 5 2 30 0).1 ≠
      [⟨1, 1⟩, ⟨1, 2⟩, ⟨1, 3⟩, ⟨1, 4⟩, ⟨1, 5⟩] ∧
    (run_iteration (fun _ => false) 5 2 30 0).2.1 = [2, 4, 8, 16] := by
  decide

/-! ### Claim C6: region average -/

/-- Congruence for `List.flatMap` over pointwise-equal functions. -/
theorem flatMap_congr_fun {α β : Type} (l : List α) (f g : α → List β)
    (h : ∀ x ∈ l, f x = g x) : l.flatMap f = l.flatMap g := by
  induction l with
  | nil => rfl
  | cons a as ih =>
    simp only [List.flatMap_cons]
    rw [h a (by simp), ih fun x hx => h x (by simp [hx])]

/-- Congruence for `List.map` over pointwise-equal functions. -/
theorem map_congr_fun {α β : Type} (l : List α) (f g : α → β)
    (h : ∀ x ∈ l, f x = g x) : l.map f = l.map g := by
  induction l with
  | nil => rfl
  | cons a as ih =>
    simp only [List.map_cons]
    rw [h a (by simp), ih fun x hx => h x (by simp [hx])]

/-- Flat-mapping the constant empty list yields the empty list. -/
theorem flatMap_nil_fun {α β : Type} (l : List α) :
    (l.flatMap fun _ => ([] : List β)) = [] := by
  induction l with
  | nil => rfl
  | cons a as ih => simp [ih]

/-- A rect with non-positive width or height always fails: negative extent raises
ValueError in the crop, zero extent yields an empty crop and a ZeroDivisionError in
`_average_color`. -/
theorem region_average_nonpos (img : Screenshot) (l t w h : ℤ) (hwh : w ≤ 0 ∨ h ≤ 0) :
    is_ok (region_average img l t w h) = false := by
  unfold region_average
  cases hc : pil_crop img l t (l + w) (t + h) with
  | error e => rfl
  | ok px =>
    show is_ok (average_color px) = false
    have hpx : px = [] := by
      unfold pil_crop at hc
      by_cases h1 : l + w < l
      · rw [if_pos h1] at hc; cases hc
      · rw [if_neg h1] at hc
        by_cases h2 : t + h < t
        · rw [if_pos h2] at hc; cases hc
        · rw [if_neg h2] at hc
          injection hc with hc
          rw [← hc]
          rcases hwh with hw | hh
          · have hw0 : (l + w - l).toNat = 0 := by omega
            simp only [hw0, List.range_zero, List.map_nil]
            exact flatMap_nil_fun _
          · have hh0 : (t + h - t).toNat = 0 := by omega
            simp only [hh0, List.range_zero]
            rfl
    rw [hpx]
    rfl

/-- Number of pixels produced for a rect. -/
theorem rect_pixels_length (img : Screenshot) (l t : ℤ) (w h : ℕ) :
    (rect_pixels img l t w h).length = h * w := by
  simp [rect_pixels, Function.comp_def]

/-- Every pixel of `rect_pixels` comes from the image. -/
theorem rect_pixels_mem (img : Screenshot) (l t : ℤ) (w h : ℕ) (p : Pixel)
    (hp : p ∈ rect_pixels img l t w h) : ∃ x y, p = img.pix x y := by
  simp only [rect_pixels, List.mem_flatMap, List.mem_map, List.mem_range] at hp
  obtain ⟨dy, _, dx, _, rfl⟩ := hp
  exact ⟨_, _, rfl⟩

/-- For an in-bounds rect with positive dimensions the code path
crop-then-`_average_color` succeeds and returns the per-channel integer mean (floor
division) over all pixels of the rect. -/
theorem region_average_inbounds (img : Screenshot) (l t w h : ℤ)
    (hl : 0 ≤ l) (ht : 0 ≤ t) (hw : 0 < w) (hh : 0 < h)
    (hr : l + w ≤ (img.width : ℤ)) (hb : t + h ≤ (img.height : ℤ))
    (hpix : ∀ x y, 3 ≤ (img.pix x y).length) :
    region_average img l t w h = Except.ok (mean_spec img l t w h) := by
  have h1 : ¬ l + w < l := by omega
  have h2 : ¬ t + h < t := by omega
  have hwn : 0 < w.toNat := by omega
  have hhn : 0 < h.toNat := by omega
  have hlen : (rect_pixels img l t w.toNat h.toNat).length = h.toNat * w.toNat :=
    rect_pixels_length img l t w.toNat h.toNat
  have hne : (rect_pixels img l t w.toNat h.toNat).isEmpty = false := by
    cases hrp : rect_pixels img l t w.toNat h.toNat with
    | nil =>
      rw [hrp] at hlen
      have := Nat.mul_pos hhn hwn
      simp only [List.length_nil] at hlen
      omega
    | cons a as => rfl
  have hany : ((rect_pixels img l t w.toNat h.toNat).any fun c =>
      decide (c.length < 3)) = false := by
    rw [List.any_eq_false]
    intro c hc
    obtain ⟨x, y, rfl⟩ := rect_pixels_mem img l t w.toNat h.toNat c hc
    simpa using hpix x y
  unfold region_average
  cases hc : pil_crop img l t (l + w) (t + h) with
  | error e =>
    unfold pil_crop at hc
    rw [if_neg h1, if_neg h2] at hc
    cases hc
  | ok px =>
    show average_color px = Except.ok (mean_spec img l t w h)
    have hpx : px = rect_pixels img l t w.toNat h.toNat := by
      unfold pil_crop at hc
      rw [if_neg h1, if_neg h2] at hc
      injection hc with hc
      rw [← hc]
      have et : (t + h - t).toNat = h.toNat := by omega
      have el : (l + w - l).toNat = w.toNat := by omega
      simp only [et, el]
      unfold rect_pixels
      refine flatMap_congr_fun _ _ _ fun dy hdy => ?_
      refine map_congr_fun _ _ _ fun dx hdx => ?_
      rw [List.mem_range] at hdy hdx
      have hcond : 0 ≤ l + (dx : ℤ) ∧ l + (dx : ℤ) < (img.width : ℤ) ∧
          0 ≤ t + (dy : ℤ) ∧ t + (dy : ℤ) < (img.height : ℤ) := by omega
      have ex : (l + (dx : ℤ)).toNat = l.toNat + dx := by omega
      have ey : (t + (dy : ℤ)).toNat = t.toNat + dy := by omega
      unfold pixel_at_padded
      rw [if_pos hcond, ex, ey]
    rw [hpx]
    unfold average_color
    rw [hne, hany]
    simp only [Bool.false_eq_true, if_false]
    unfold mean_spec
    simp only [hlen, Nat.mul_comm h.toNat w.toNat]

/-- C6 amended: the crop-then-average operation fails exactly for rects with
non-positive width or height; a rect lying (partly or fully) outside the image bounds
does not fail — PIL pads the out-of-bounds area with black pixels — and for in-bounds
rects with positive dimensions it returns the per-channel integer mean (floor
division) over all pixels. -/
theorem C6_amended :
    (∀ (img : Screenshot) (l t w h : ℤ), w ≤ 0 ∨ h ≤ 0 →
      is_ok (region_average img l t w h) = false) ∧
    (∀ (img : Screenshot) (l t w h : ℤ),
      0 ≤ l → 0 ≤ t → 0 < w → 0 < h →
      l + w ≤ (img.width : ℤ) → t + h ≤ (img.height : ℤ) →
      (∀ x y, 3 ≤ (img.pix x y).length) →
      region_average img l t w h = Except.ok (mean_spec img l t w h)) :=
  ⟨region_average_nonpos, region_average_inbounds⟩

/-- An all-white 2-by-2 screenshot. -/
def white2 : Screenshot := ⟨2, 2, fun _ _ => [255, 255, 255]⟩

/-- C6 counterexample: the rect (left 10, top 10, width 2, height 2) lies entirely
outside the 2-by-2 image, yet the operation does not fail — the crop is padded with
black and the average (0, 0, 0) is returned, refuting the claim that an out-of-bounds
rect yields a SampleError. -/
theorem C6_counterexample :
    region_average white2 10 10 2 2 = Except.ok [0, 0, 0] ∧
    is_ok (region_average white2 10 10 2 2) = true :=
  ⟨rfl, rfl⟩

/-- A constant-color 2-by-2 screenshot. -/
def gray2 : Screenshot := ⟨2, 2, fun _ _ => [8, 16, 32]⟩

/-- Witness for C6 at a concrete input: the full in-bounds rect of `gray2` averages to
its constant color. -/
theorem C6_witness :
    region_average gray2 0 0 2 2 = Except.ok (mean_spec gray2 0 0 2 2) :=
  C6_amended.2 gray2 0 0 2 2 (by decide) (by decide) (by decide) (by decide)
    (by decide) (by decide) (fun _ _ => Nat.le_refl 3)

/-! ### Multi-modal detection: time-threaded model

Wall-clock time is a natural number of milliseconds; the 0.5 s polling sleep is 500 ms
and `delays.operation` (slept after every successful click) is `op_delay` ms.  Sensing
primitives are oracles indexed by the time at which they run. -/

/-- Lower-cased character list of a Python string, for case-insensitive matching. -/
def lower_chars (s : String) : List Char :=
  s.toList.map Char.toLower

/-- Python substring containment `needle in hay` on character lists. -/
def str_contains (needle : List Char) : List Char → Bool
  | [] => needle.isEmpty
  | c :: rest => needle.isPrefixOf (c :: rest) || str_contains needle rest

/-- One word produced by `pytesseract.image_to_data`, with its bounding box. -/
structure OcrWord where
  text : String
  left : ℕ
  top : ℕ
  width : ℕ
  height : ℕ
  deriving DecidableEq

/-- The word scan of `find_text_and_click` (src/src/image_recognition.py lines
178-184): the first word whose lower-cased text contains the lower-cased target is
clicked at `(left + width // 2, top + height // 2)`. -/
def ocr_find_first (target : List Char) : List OcrWord → Option Point
  | [] => none
  | w :: ws =>
    if str_contains target (lower_chars w.text) then
      some (((w.left + w.width / 2 : ℕ) : ℤ), ((w.top + w.height / 2 : ℕ) : ℤ))
    else ocr_find_first target ws

/-- One configured pixel heuristic (an entry of `config["pixels"][key]`):
point form (`x`/`y` keys), region form (`region` key), or malformed (neither).
An absent `tolerance` key defaults to 10 at evaluation time. -/
inductive PixelRule where
  | point (x y : ℤ) (color : Color) (tolerance : Option ℤ) : PixelRule
  | region (l t w h : ℤ) (color : Color) (tolerance : Option ℤ) : PixelRule
  | malformed : PixelRule
  deriving DecidableEq

/-- Screenshot channels viewed as Python ints for `_color_match`. -/
def int_color (p : Pixel) : Color :=
  p.map fun c => (c : ℤ)

/-- Evaluation of one heuristic inside a pass of `find_pixel_and_click` (lines
94-134).  Read errors (getpixel IndexError, crop/average exceptions) are caught and
skip the rule (`none`); a malformed rule is skipped with a diagnostic.  On a region
match the click point is `(left + width // 2, top + height // 2)` (reachable only with
positive width/height, where Lean integer division agrees with Python floor
division). -/
def pixel_rule_eval (img : Screenshot) : PixelRule → Option Point
  | PixelRule.point x y color tol =>
    match getpixel img x y with
    | none => none
    | some pc =>
      if color_match (int_color pc) color (tol.getD 10) then some (x, y) else none
  | PixelRule.region l t w h color tol =>
    match region_average img l t w h with
    | Except.error _ => none
    | Except.ok avg =>
      if color_match (int_color avg) color (tol.getD 10) then some (l + w / 2, t + h / 2)
      else none
  | PixelRule.malformed => none

/-- In-order scan of the configured heuristics within one pass, first match wins. -/
def pixel_scan (img : Screenshot) : List PixelRule → Option Point
  | [] => none
  | r :: rs =>
    match pixel_rule_eval img r with
    | some p => some p
    | none => pixel_scan img rs

/-- Oracles for the sensing primitives, indexed by invocation time (ms).
`locate_res t = none` covers both "template not on screen" and a locate exception,
which the source treats identically; `ocr_res t = none` is an OCR exception (swallowed
and treated as no match). -/
structure Env where
  locate_dur : ℕ → ℕ
  locate_res : ℕ → Option Point
  ocr_dur : ℕ → ℕ
  ocr_res : ℕ → Option (List OcrWord)
  shot_dur : ℕ → ℕ
  shot : ℕ → Screenshot

/-- Configuration relevant to one detection key: the template path
(`config["templates"][key]`, `none` for missing or empty), the pixel heuristics
(`config["pixels"][key]`, `[]` for missing or empty), the operation delay in ms and
the OCR-enabled flag. -/
structure DetectConfig where
  template_path : Option String
  pixel_rules : List PixelRule
  op_delay : ℕ
  ocr_enabled : Bool

/-- Recursion bound for a polling loop: each pass consumes at least the 500 ms sleep,
so a budget of `timeout` ms never supports `timeout.toNat + 1` passes. -/
def fuel_for (timeout : ℤ) : ℕ :=
  timeout.toNat + 1

/-- The polling loop shared verbatim by `find_and_click` (lines 36-47),
`find_text_and_click` (lines 173-187) and `find_pixel_and_click` (lines 89-137):
while the elapsed time since `start` is strictly below `timeout`, run one sensing pass
(`hit now`, taking `dur now` ms); on a hit, click, sleep the operation delay and
return; otherwise sleep 500 ms and poll again.  Returns (result, end time, start times
of the executed passes). -/
def poll_loop (hit : ℕ → Option Point) (dur : ℕ → ℕ) (opDelay : ℕ) (timeout : ℤ)
    (start : ℕ) : ℕ → ℕ → Option Point × ℕ × List ℕ
  | 0, now => (none, now, [])
  | fuel + 1, now =>
    if ((now : ℤ) - (start : ℤ)) < timeout then
      match hit now with
      | some p => (some p, now + dur now + opDelay, [now])
      | none =>
        let r := poll_loop hit dur opDelay timeout start fuel (now + dur now + 500)
        (r.1, r.2.1, now :: r.2.2)
    else (none, now, [])

/-- Embedding of `ImageRecognizer.find_and_click` (lines 24-49): a missing template
path fails immediately; otherwise poll `locateCenterOnScreen` and click the located
center.  The boolean result of the source is `res.isSome`; the click point is kept so
the detector's resolved point can be stated. -/
def find_and_click (env : Env) (cfg : DetectConfig) (timeout : ℤ) (now : ℕ) :
    Option Point × ℕ × List ℕ :=
  match cfg.template_path with
  | none => (none, now, [])
  | some _ => poll_loop env.locate_res env.locate_dur cfg.op_delay timeout now
      (fuel_for timeout) now

/-- The per-pass OCR outcome of `find_text_and_click`: run OCR (an exception gives
`none`) and scan the words for the target. -/
def ocr_hit (env : Env) (target : List Char) (now : ℕ) : Option Point :=
  (env.ocr_res now).bind (ocr_find_first target)

/-- Embedding of `ImageRecognizer.find_text_and_click` (lines 165-190): immediate
failure when OCR is disabled, otherwise poll OCR passes. -/
def find_text_and_click (env : Env) (cfg : DetectConfig) (text : String) (timeout : ℤ)
    (now : ℕ) : Option Point × ℕ × List ℕ :=
  if cfg.ocr_enabled then
    poll_loop (ocr_hit env (lower_chars text)) env.ocr_dur cfg.op_delay timeout now
      (fuel_for timeout) now
  else (none, now, [])

/-- Embedding of `ImageRecognizer.find_pixel_and_click` (lines 51-140): no configured
heuristics fails immediately; otherwise poll, each pass taking one screenshot and
scanning the rules in order. -/
def find_pixel_and_click (env : Env) (cfg : DetectConfig) (timeout : ℤ) (now : ℕ) :
    Option Point × ℕ × List ℕ :=
  if cfg.pixel_rules.isEmpty then (none, now, [])
  else poll_loop (fun t => pixel_scan (env.shot t) cfg.pixel_rules) env.shot_dur
    cfg.op_delay timeout now (fuel_for timeout) now

/-- The three detection stages of `find_with_fallback_and_click`. -/
inductive Stage where
  | template : Stage
  | ocr : Stage
  | pixel : Stage
  deriving DecidableEq

/-- Record of one stage function invocation inside `find_with_fallback_and_click`:
the stage, its start time, the budget it was given, the start times of its polling
passes, its resolved point (if any) and its end time. -/
structure StageRun where
  stage : Stage
  startT : ℕ
  budget : ℤ
  passes : List ℕ
  result : Option Point
  endT : ℕ
  deriving DecidableEq

/-- Outcome of one `find_with_fallback_and_click` call: the resolved point (the
source returns True after clicking it), the end time, and the stage invocations. -/
structure FbOut where
  result : Option Point
  endT : ℕ
  runs : List StageRun
  deriving DecidableEq

/-- Stage 3 of `find_with_fallback_and_click` (lines 229-240): recompute the
remaining budget; if it is exhausted fail immediately, otherwise run the pixel
heuristic stage with exactly the remaining budget. -/
def fallback_pixel (env : Env) (cfg : DetectConfig) (timeout : ℤ) (start now : ℕ)
    (runs : List StageRun) : FbOut :=
  if timeout - ((now : ℤ) - (start : ℤ)) ≤ 0 then ⟨none, now, runs⟩
  else
    match find_pixel_and_click env cfg (timeout - ((now : ℤ) - (start : ℤ))) now with
    | (res, e, ps) =>
      ⟨res, e,
        runs ++ [⟨Stage.pixel, now, timeout - ((now : ℤ) - (start : ℤ)), ps, res, e⟩]⟩

/-- Stage 2 of `find_with_fallback_and_click` (lines 216-227) followed by stage 3:
the OCR stage runs only when OCR is enabled and a text hint is provided (an empty
hint is falsy in the source and is modelled as `none`); it is gated on the remaining
budget, and on failure stage 3 follows. -/
def fallback_after_template (env : Env) (cfg : DetectConfig) (text : Option String)
    (timeout : ℤ) (start now : ℕ) (runs : List StageRun) : FbOut :=
  if cfg.ocr_enabled ∧ text.isSome then
    if timeout - ((now : ℤ) - (start : ℤ)) ≤ 0 then ⟨none, now, runs⟩
    else
      match find_text_and_click env cfg (text.getD "")
          (timeout - ((now : ℤ) - (start : ℤ))) now with
      | (some p, e, ps) =>
        ⟨some p, e,
          runs ++ [⟨Stage.ocr, now, timeout - ((now : ℤ) - (start : ℤ)), ps, some p, e⟩]⟩
      | (none, e, ps) =>
        fallback_pixel env cfg timeout start e
          (runs ++ [⟨Stage.ocr, now, timeout - ((now : ℤ) - (start : ℤ)), ps, none, e⟩])
  else fallback_pixel env cfg timeout start now runs

/-- Embedding of `ImageRecognizer.find_with_fallback_and_click` (lines 192-240),
called at wall-clock time `start`: template, then OCR, then pixel heuristics, each
stage gated on the remaining budget `timeout - elapsed` and given exactly that
budget. -/
def find_with_fallback_and_click (env : Env) (cfg : DetectConfig)
    (text : Option String) (timeout : ℤ) (start : ℕ) : FbOut :=
  if timeout ≤ 0 then ⟨none, start, []⟩
  else
    match find_and_click env cfg timeout start with
    | (some p, e, ps) =>
      ⟨some p, e, [⟨Stage.template, start, timeout, ps, some p, e⟩]⟩
    | (none, e, ps) =>
      fallback_after_template env cfg text timeout start e
        [⟨Stage.template, start, timeout, ps, none, e⟩]

/-- Total time spent inside the stage sub-searches of one fallback call. -/
def stage_time_sum (fb : FbOut) : ℕ :=
  (fb.runs.map fun r => r.endT - r.startT).sum

/-! ### Polling-loop lemmas -/

/-- Every executed polling pass starts strictly before the loop's deadline. -/
theorem poll_loop_pass_lt (hit : ℕ → Option Point) (dur : ℕ → ℕ) (opDelay : ℕ)
    (timeout : ℤ) (start : ℕ) :
    ∀ (fuel now p : ℕ), p ∈ (poll_loop hit dur opDelay timeout start fuel now).2.2 →
      ((p : ℤ) - (start : ℤ)) < timeout := by
  intro fuel
  induction fuel with
  | zero => intro now p hp; simp [poll_loop] at hp
  | succ n ih =>
    intro now p hp
    simp only [poll_loop] at hp
    by_cases hc : ((now : ℤ) - (start : ℤ)) < timeout
    · rw [if_pos hc] at hp
      cases hhit : hit now with
      | some q =>
        rw [hhit] at hp
        simp only [List.mem_singleton] at hp
        subst hp
        exact hc
      | none =>
        rw [hhit] at hp
        simp only [List.mem_cons] at hp
        rcases hp with rfl | hp
        · exact hc
        · exact ih _ _ hp
    · rw [if_neg hc] at hp
      simp at hp

/-- A loop whose sensing oracle never hits returns no point. -/
theorem poll_loop_nohit (hit : ℕ → Option Point) (dur : ℕ → ℕ) (opDelay : ℕ)
    (timeout : ℤ) (start : ℕ) (hno : ∀ t, hit t = none) :
    ∀ fuel now, (poll_loop hit dur opDelay timeout start fuel now).1 = none := by
  intro fuel
  induction fuel with
  | zero => intro now; rfl
  | succ n ih =>
    intro now
    simp only [poll_loop]
    by_cases hc : ((now : ℤ) - (start : ℤ)) < timeout
    · rw [if_pos hc, hno now]
      exact ih _
    · rw [if_neg hc]

/-- A loop whose sensing oracle never hits, given enough fuel (each pass consumes at
least 500 ms), ends at or after its deadline. -/
theorem poll_loop_nohit_end (hit : ℕ → Option Point) (dur : ℕ → ℕ) (opDelay : ℕ)
    (timeout : ℤ) (start : ℕ) (hno : ∀ t, hit t = none) :
    ∀ (fuel now : ℕ), timeout ≤ 500 * (fuel : ℤ) + ((now : ℤ) - (start : ℤ)) →
      timeout ≤ ((poll_loop hit dur opDelay timeout start fuel now).2.1 : ℤ) - (start : ℤ) := by
  intro fuel
  induction fuel with
  | zero =>
    intro now hb
    simp only [poll_loop]
    push_cast at hb
    omega
  | succ n ih =>
    intro now hb
    simp only [poll_loop]
    by_cases hc : ((now : ℤ) - (start : ℤ)) < timeout
    · rw [if_pos hc, hno now]
      refine ih _ ?_
      push_cast
      push_cast at hb
      omega
    · rw [if_neg hc]
      show timeout ≤ (now : ℤ) - (start : ℤ)
      omega

/-- A hit on the very first pass returns at once, after the sensing duration and the
post-click operation delay, with a single executed pass and no 0.5 s poll sleep. -/
theorem poll_loop_first_hit (hit : ℕ → Option Point) (dur : ℕ → ℕ) (opDelay : ℕ)
    (timeout : ℤ) (start fuel now : ℕ) (p : Point)
    (hh : hit now = some p) (hc : ((now : ℤ) - (start : ℤ)) < timeout) :
    poll_loop hit dur opDelay timeout start (fuel + 1) now =
      (some p, now + dur now + opDelay, [now]) := by
  simp only [poll_loop]
  rw [if_pos hc, hh]

/-- The OCR word scan returns the box center of the first matching word. -/
theorem ocr_find_first_append (tgt : List Char) (w : OcrWord) (ws1 ws2 : List OcrWord)
    (h1 : ∀ x ∈ ws1, str_contains tgt (lower_chars x.text) = false)
    (h2 : str_contains tgt (lower_chars w.text) = true) :
    ocr_find_first tgt (ws1 ++ w :: ws2) =
      some (((w.left + w.width / 2 : ℕ) : ℤ), ((w.top + w.height / 2 : ℕ) : ℤ)) := by
  induction ws1 with
  | nil =>
    simp only [List.nil_append, ocr_find_first]
    rw [if_pos h2]
  | cons x xs ih =>
    have hx := h1 x (by simp)
    simp only [List.cons_append, ocr_find_first, hx, Bool.false_eq_true, if_false]
    exact ih fun y hy => h1 y (by simp [hy])

/-! ### Stage-level pass bounds -/

/-- Passes of the template stage start strictly before its deadline. -/
theorem find_and_click_passes (env : Env) (cfg : DetectConfig) (timeout : ℤ)
    (now p : ℕ) (hp : p ∈ (find_and_click env cfg timeout now).2.2) :
    ((p : ℤ) - (now : ℤ)) < timeout := by
  unfold find_and_click at hp
  cases htp : cfg.template_path with
  | none => rw [htp] at hp; simp at hp
  | some s => rw [htp] at hp; exact poll_loop_pass_lt _ _ _ _ _ _ _ _ hp

/-- Passes of the OCR stage start strictly before its deadline. -/
theorem find_text_and_click_passes (env : Env) (cfg : DetectConfig) (text : String)
    (timeout : ℤ) (now p : ℕ)
    (hp : p ∈ (find_text_and_click env cfg text timeout now).2.2) :
    ((p : ℤ) - (now : ℤ)) < timeout := by
  unfold find_text_and_click at hp
  by_cases hocr : cfg.ocr_enabled
  · rw [if_pos hocr] at hp
    exact poll_loop_pass_lt _ _ _ _ _ _ _ _ hp
  · rw [if_neg hocr] at hp
    simp at hp

/-- Passes of the pixel stage start strictly before its deadline. -/
theorem find_pixel_and_click_passes (env : Env) (cfg : DetectConfig) (timeout : ℤ)
    (now p : ℕ) (hp : p ∈ (find_pixel_and_click env cfg timeout now).2.2) :
    ((p : ℤ) - (now : ℤ)) < timeout := by
  unfold find_pixel_and_click at hp
  by_cases hrules : cfg.pixel_rules.isEmpty
  · rw [if_pos hrules] at hp
    simp at hp
  · rw [if_neg hrules] at hp
    exact poll_loop_pass_lt _ _ _ _ _ _ _ _ hp

/-! ### Claim C2: budget discipline of the fallback chain -/

/-- Budget discipline of one recorded stage invocation: the stage was given exactly
the remaining budget (total timeout minus the time already elapsed), that budget was
strictly positive, and every polling pass of the stage began strictly before the
stage's deadline. -/
def run_ok (timeout : ℤ) (start : ℕ) (r : StageRun) : Prop :=
  r.budget = timeout - ((r.startT : ℤ) - (start : ℤ)) ∧ 0 < r.budget ∧
    ∀ p ∈ r.passes, ((p : ℤ) - (r.startT : ℤ)) < r.budget

/-- Stage 3 preserves budget discipline. -/
theorem fallback_pixel_run_ok (env : Env) (cfg : DetectConfig) (timeout : ℤ)
    (start now : ℕ) (runs : List StageRun)
    (hruns : ∀ r ∈ runs, run_ok timeout start r) :
    ∀ r ∈ (fallback_pixel env cfg timeout start now runs).runs, run_ok timeout start r := by
  intro r hr
  unfold fallback_pixel at hr
  by_cases hg : timeout - ((now : ℤ) - (start : ℤ)) ≤ 0
  · rw [if_pos hg] at hr
    exact hruns r hr
  · rw [if_neg hg] at hr
    rcases hfp : find_pixel_and_click env cfg (timeout - ((now : ℤ) - (start : ℤ))) now
      with ⟨res, e, ps⟩
    rw [hfp] at hr
    simp only [List.mem_append, List.mem_singleton] at hr
    rcases hr with hr | rfl
    · exact hruns r hr
    · refine ⟨rfl, ?_, ?_⟩
      · show (0 : ℤ) < timeout - ((now : ℤ) - (start : ℤ))
        omega
      · intro p hp
        refine find_pixel_and_click_passes env cfg (timeout - ((now : ℤ) - (start : ℤ)))
          now p ?_
        rw [hfp]
        exact hp

/-- Stages 2 and 3 preserve budget discipline. -/
theorem fallback_after_template_run_ok (env : Env) (cfg : DetectConfig)
    (text : Option String) (timeout : ℤ) (start now : ℕ) (runs : List StageRun)
    (hruns : ∀ r ∈ runs, run_ok timeout start r) :
    ∀ r ∈ (fallback_after_template env cfg text timeout start now runs).runs,
      run_ok timeout start r := by
  intro r hr
  unfold fallback_after_template at hr
  by_cases hocr : cfg.ocr_enabled ∧ text.isSome
  · rw [if_pos hocr] at hr
    by_cases hg : timeout - ((now : ℤ) - (start : ℤ)) ≤ 0
    · rw [if_pos hg] at hr
      exact hruns r hr
    · rw [if_neg hg] at hr
      rcases hftc : find_text_and_click env cfg (text.getD "")
          (timeout - ((now : ℤ) - (start : ℤ))) now with ⟨res, e, ps⟩
      rw [hftc] at hr
      have hps : ∀ p ∈ ps, ((p : ℤ) - (now : ℤ)) < timeout - ((now : ℤ) - (start : ℤ)) := by
        intro p hp
        refine find_text_and_click_passes env cfg (text.getD "")
          (timeout - ((now : ℤ) - (start : ℤ))) now p ?_
        rw [hftc]
        exact hp
      cases res with
      | some p =>
        simp only [List.mem_append, List.mem_singleton] at hr
        rcases hr with hr | rfl
        · exact hruns r hr
        · refine ⟨rfl, ?_, hps⟩
          show (0 : ℤ) < timeout - ((now : ℤ) - (start : ℤ))
          omega
      | none =>
        refine fallback_pixel_run_ok env cfg timeout start _ _ ?_ r hr
        intro q hq
        simp only [List.mem_append, List.mem_singleton] at hq
        rcases hq with hq | rfl
        · exact hruns q hq
        · refine ⟨rfl, ?_, hps⟩
          show (0 : ℤ) < timeout - ((now : ℤ) - (start : ℤ))
          omega
  · rw [if_neg hocr] at hr
    exact fallback_pixel_run_ok env cfg timeout start now runs hruns r hr

/-- C2 amended: every stage invocation recorded by `find_with_fallback_and_click` was
given exactly the remaining budget (the total timeout minus the time elapsed since the
call began), was attempted only while that budget was strictly positive (an exhausted
budget makes the whole call fail immediately without attempting the stage), and every
polling pass inside an attempted stage begins strictly before the stage's deadline.
The total time spent may still exceed the timeout by the tail of a stage's final
polling pass, which is what refutes the claim as originally stated. -/
theorem C2_amended (env : Env) (cfg : DetectConfig) (text : Option String)
    (timeout : ℤ) (start : ℕ) :
    ∀ r ∈ (find_with_fallback_and_click env cfg text timeout start).runs,
      run_ok timeout start r := by
  intro r hr
  unfold find_with_fallback_and_click at hr
  by_cases hg : timeout ≤ 0
  · rw [if_pos hg] at hr
    simp at hr
  · rw [if_neg hg] at hr
    rcases hfc : find_and_click env cfg timeout start with ⟨res, e, ps⟩
    rw [hfc] at hr
    have hps : ∀ p ∈ ps, ((p : ℤ) - (start : ℤ)) < timeout := by
      intro p hp
      refine find_and_click_passes env cfg timeout start p ?_
      rw [hfc]
      exact hp
    cases res with
    | some p =>
      simp only [List.mem_singleton] at hr
      subst hr
      exact ⟨by show timeout = timeout - ((start : ℤ) - (start : ℤ)); omega,
        by show (0 : ℤ) < timeout; omega, hps⟩
    | none =>
      refine fallback_after_template_run_ok env cfg text timeout start _ _ ?_ r hr
      intro q hq
      simp only [List.mem_singleton] at hq
      subst hq
      exact ⟨by show timeout = timeout - ((start : ℤ) - (start : ℤ)); omega,
        by show (0 : ℤ) < timeout; omega, hps⟩

/-- Environment for the C2 scenario: a configured template that is never found (each
locate attempt instantaneous), OCR disabled, no pixel rules. -/
def env2 : Env :=
  ⟨fun _ => 0, fun _ => none, fun _ => 0, fun _ => none, fun _ => 0, fun _ => white2⟩

/-- Detection config for the C2 scenario. -/
def cfg2 : DetectConfig := ⟨some "tpl.png", [], 1000, false⟩

/-- C2 counterexample: with a total timeout of 600 ms, the template stage's final pass
begins at 500 ms (still inside the budget) and its 500 ms poll sleep ends at 1000 ms,
so the sum of time spent across the sub-searches is 1000 ms, exceeding the original
600 ms timeout — the claimed invariant "never exceeds T" is false. -/
theorem C2_counterexample :
    stage_time_sum (find_with_fallback_and_click env2 cfg2 none 600 0) = 1000 ∧
    600 < stage_time_sum (find_with_fallback_and_click env2 cfg2 none 600 0) := by
  decide

/-- Witness for C2 at a concrete input: the template run of the 600 ms call satisfies
the budget discipline (budget 600, passes at 0 and 500 ms, both before the deadline). -/
theorem C2_witness :
    run_ok 600 0 ⟨Stage.template, 0, 600, [0, 500], none, 1000⟩ :=
  C2_amended env2 cfg2 none 600 0 ⟨Stage.template, 0, 600, [0, 500], none, 1000⟩
    (by decide)

/-! ### Claim C3: immediate template hit -/

/-- C3 amended: if the template stage's locate succeeds on the very first polling
pass, the fallback call returns that point after a single pass — no 0.5 s poll sleep
occurs, and the OCR and pixel stages are never invoked; the call returns after the
locate duration plus the post-click operation delay (default 1 s), which can exceed
one 0.5 s polling interval. -/
theorem C3_amended (env : Env) (cfg : DetectConfig) (text : Option String)
    (timeout : ℤ) (start : ℕ) (path : String) (p : Point)
    (htimeout : 0 < timeout) (hpath : cfg.template_path = some path)
    (hhit : env.locate_res start = some p) :
    find_with_fallback_and_click env cfg text timeout start =
      ⟨some p, start + env.locate_dur start + cfg.op_delay,
        [⟨Stage.template, start, timeout, [start], some p,
          start + env.locate_dur start + cfg.op_delay⟩]⟩ := by
  have hfc : find_and_click env cfg timeout start =
      (some p, start + env.locate_dur start + cfg.op_delay, [start]) := by
    unfold find_and_click
    rw [hpath]
    unfold fuel_for
    exact poll_loop_first_hit _ _ _ _ _ _ _ _ hhit (by omega)
  unfold find_with_fallback_and_click
  rw [if_neg (by omega), hfc]

/-- Environment for the C3 scenario: the template is located instantly at (7, 9). -/
def env3 : Env :=
  ⟨fun _ => 0, fun _ => some (7, 9), fun _ => 0, fun _ => none, fun _ => 0, fun _ => white2⟩

/-- Detection config for the C3 scenario, with the source's default 1 s operation
delay. -/
def cfg3 : DetectConfig := ⟨some "tpl.png", [], 1000, true⟩

/-- C3 counterexample: the template matches on the first pass, yet the call returns
only after 1000 ms (the post-click operation delay), not within one 0.5 s polling
interval as claimed. -/
theorem C3_counterexample :
    (find_with_fallback_and_click env3 cfg3 (some "Copy") 10000 0).result = some (7, 9) ∧
    (find_with_fallback_and_click env3 cfg3 (some "Copy") 10000 0).endT = 1000 ∧
    ¬ (find_with_fallback_and_click env3 cfg3 (some "Copy") 10000 0).endT ≤ 500 := by
  decide

/-- Witness for C3 at a concrete input: the first-pass hit returns (7, 9) with a
single template pass and no OCR or pixel stage. -/
theorem C3_witness :
    find_with_fallback_and_click env3 cfg3 (some "Copy") 10000 0 =
      ⟨some (7, 9), 1000, [⟨Stage.template, 0, 10000, [0], some (7, 9), 1000⟩]⟩ :=
  C3_amended env3 cfg3 (some "Copy") 10000 0 "tpl.png" (7, 9) (by decide) rfl rfl

/-! ### Claim C1: no template, unmatched OCR hint, matching pixel rule -/

/-- C1 amended: with no configured template, OCR enabled, a text hint that the OCR
stage never matches, and even a pixel rule that always matches the current screenshot,
`find_with_fallback_and_click` does NOT return the pixel-resolved point: the OCR stage
consumes the entire remaining budget, the pixel stage's remaining budget is then ≤ 0,
and the call fails immediately — only the template and OCR stages are ever invoked. -/
theorem C1_amended (env : Env) (cfg : DetectConfig) (s : String) (timeout : ℤ)
    (start : ℕ) (htp : cfg.template_path = none) (hocr : cfg.ocr_enabled = true)
    (htimeout : 0 < timeout)
    (hno : ∀ t, ocr_hit env (lower_chars s) t = none)
    (_hpx : ∀ t, (pixel_scan (env.shot t) cfg.pixel_rules).isSome = true) :
    (find_with_fallback_and_click env cfg (some s) timeout start).result = none ∧
    (find_with_fallback_and_click env cfg (some s) timeout start).runs.map
      StageRun.stage = [Stage.template, Stage.ocr] := by
  have hfc : find_and_click env cfg timeout start = (none, start, []) := by
    unfold find_and_click
    rw [htp]
  have hftc1 : (find_text_and_click env cfg s
      (timeout - ((start : ℤ) - (start : ℤ))) start).1 = none := by
    unfold find_text_and_click
    rw [hocr, if_pos rfl]
    exact poll_loop_nohit _ _ _ _ _ hno _ _
  have hftc2 : timeout - ((start : ℤ) - (start : ℤ)) ≤
      (((find_text_and_click env cfg s
        (timeout - ((start : ℤ) - (start : ℤ))) start).2.1 : ℤ)) - (start : ℤ) := by
    unfold find_text_and_click
    rw [hocr, if_pos rfl]
    refine poll_loop_nohit_end _ _ _ _ _ hno _ _ ?_
    unfold fuel_for
    push_cast
    omega
  rcases hftc : find_text_and_click env cfg s
      (timeout - ((start : ℤ) - (start : ℤ))) start with ⟨res2, e2, ps2⟩
  rw [hftc] at hftc1 hftc2
  have hres2 : res2 = none := hftc1
  have he2 : timeout - ((start : ℤ) - (start : ℤ)) ≤ (e2 : ℤ) - (start : ℤ) := hftc2
  subst hres2
  unfold find_with_fallback_and_click
  rw [if_neg (by omega), hfc]
  show (fallback_after_template env cfg (some s) timeout start start
      [⟨Stage.template, start, timeout, [], none, start⟩]).result = none ∧
    (fallback_after_template env cfg (some s) timeout start start
      [⟨Stage.template, start, timeout, [], none, start⟩]).runs.map
      StageRun.stage = [Stage.template, Stage.ocr]
  unfold fallback_after_template
  rw [if_pos ⟨hocr, rfl⟩, if_neg (by omega : ¬ timeout - ((start : ℤ) - (start : ℤ)) ≤ 0)]
  simp only [Option.getD_some]
  rw [hftc]
  show (fallback_pixel env cfg timeout start e2
      ([⟨Stage.template, start, timeout, [], none, start⟩] ++
        [⟨Stage.ocr, start, timeout - ((start : ℤ) - (start : ℤ)), ps2, none, e2⟩])).result
        = none ∧
    (fallback_pixel env cfg timeout start e2
      ([⟨Stage.template, start, timeout, [], none, start⟩] ++
        [⟨Stage.ocr, start, timeout - ((start : ℤ) - (start : ℤ)), ps2, none, e2⟩])).runs.map
      StageRun.stage = [Stage.template, Stage.ocr]
  unfold fallback_pixel
  rw [if_pos (by omega : timeout - ((e2 : ℤ) - (start : ℤ)) ≤ 0)]
  exact ⟨rfl, rfl⟩

/-- An all-black 2-by-2 screenshot. -/
def black2 : Screenshot := ⟨2, 2, fun _ _ => [0, 0, 0]⟩

/-- A pixel rule that matches the black screenshot at (0, 0). -/
def rule1 : PixelRule := PixelRule.point 0 0 [0, 0, 0] none

/-- Environment for the C1 scenario: OCR runs instantly but emits no words; every
screenshot is all black, so `rule1` always matches. -/
def env1 : Env :=
  ⟨fun _ => 0, fun _ => none, fun _ => 0, fun _ => some [], fun _ => 0, fun _ => black2⟩

/-- Detection config for the C1 scenario: no template, a matching pixel rule, OCR
enabled. -/
def cfg1 : DetectConfig := ⟨none, [rule1], 1000, true⟩

/-- C1 counterexample: no template, an OCR hint that never matches, and a pixel rule
that matches the current screenshot; the claim says the call succeeds with the
pixel-resolved point (0, 0), but the call fails (`none`) and the pixel stage is never
invoked — the OCR stage exhausted the whole 1000 ms budget. -/
theorem C1_counterexample :
    pixel_rule_eval (env1.shot 0) rule1 = some (0, 0) ∧
    (find_with_fallback_and_click env1 cfg1 (some "Copy") 1000 0).result = none ∧
    (find_with_fallback_and_click env1 cfg1 (some "Copy") 1000 0).runs.map
      StageRun.stage = [Stage.template, Stage.ocr] := by
  decide

/-- Witness for C1 at a concrete input, instantiating the amended theorem on the
scenario environment. -/
theorem C1_witness :
    (find_with_fallback_and_click env1 cfg1 (some "Copy") 1000 0).result = none ∧
    (find_with_fallback_and_click env1 cfg1 (some "Copy") 1000 0).runs.map
      StageRun.stage = [Stage.template, Stage.ocr] :=
  C1_amended env1 cfg1 "Copy" 1000 0 rfl rfl (by decide) (fun _ => rfl) (fun _ => rfl)

/-! ### Claim C7: OCR box-center resolution, first-hit order -/

/-- C7: when OCR emits the word "Submit" with box (left 100, top 200, width 40,
height 15) as the first word containing the target "Submit" case-insensitively (any
words before it do not match; any words after it are ignored — matching is first-hit
in emission order, not best-confidence), `find_text_and_click` resolves and clicks
the box center (120, 207) = (left + width // 2, top + height // 2) on its first
polling pass. -/
theorem C7_theorem (env : Env) (cfg : DetectConfig) (timeout : ℤ) (now : ℕ)
    (ws1 ws2 : List OcrWord)
    (hocr : cfg.ocr_enabled = true) (htimeout : 0 < timeout)
    (hres : env.ocr_res now = some (ws1 ++ ⟨"Submit", 100, 200, 40, 15⟩ :: ws2))
    (hmiss : ∀ x ∈ ws1, str_contains (lower_chars "Submit") (lower_chars x.text) = false) :
    find_text_and_click env cfg "Submit" timeout now =
      (some (120, 207), now + env.ocr_dur now + cfg.op_delay, [now]) := by
  have hhit : ocr_hit env (lower_chars "Submit") now = some (120, 207) := by
    unfold ocr_hit
    rw [hres]
    show ocr_find_first (lower_chars "Submit")
      (ws1 ++ ⟨"Submit", 100, 200, 40, 15⟩ :: ws2) = some (120, 207)
    rw [ocr_find_first_append _ _ _ _ hmiss (by decide)]
    decide
  unfold find_text_and_click
  rw [hocr, if_pos rfl]
  unfold fuel_for
  rw [poll_loop_first_hit _ _ _ _ _ _ _ _ hhit (by omega)]

/-- OCR words for the C7 witness: a non-matching word first, then the target, then a
later word that also contains "submit" (ignored: first hit wins). -/
def words7 : List OcrWord :=
  [⟨"Run", 10, 20, 30, 40⟩, ⟨"Submit", 100, 200, 40, 15⟩, ⟨"Resubmit", 400, 400, 10, 10⟩]

/-- Environment for the C7 scenario: OCR takes 7 ms and always emits `words7`. -/
def env7 : Env :=
  ⟨fun _ => 0, fun _ => none, fun _ => 7, fun _ => some words7, fun _ => 0, fun _ => black2⟩

/-- Detection config for the C7 scenario. -/
def cfg7 : DetectConfig := ⟨none, [], 1000, true⟩

/-- Witness for C7 at a concrete input: the center (120, 207) of the first matching
box is clicked on the first pass, despite a later word that also matches. -/
theorem C7_witness :
    find_text_and_click env7 cfg7 "Submit" 10000 0 = (some (120, 207), 0 + 7 + 1000, [0]) :=
  C7_theorem env7 cfg7 10000 0 [⟨"Run", 10, 20, 30, 40⟩] [⟨"Resubmit", 400, 400, 10, 10⟩]
    rfl (by decide) rfl (by decide)

end ChillingVibes
